import Mathlib

/-!
Verification development for the suite execution engine in
`vendor/github.com/onsi/ginkgo/v2/internal/suite.go`.

Go `time.Time` is modelled as an integer instant where `0` is the zero
(unset) time and real instants are positive; `time.Duration` is an integer.
`t.IsZero()` becomes `t = 0`, `a.Before(b)` becomes `a < b`, and
`a.Sub(b)` becomes `a - b`.
-/

namespace GinkgoSuite

abbrev Time := Int

abbrev Duration := Int

/-- Modelled from the spec: the spec-state enumeration of the `types` package
(not part of this file's source): Passed, Failed, Panicked, Timedout,
Interrupted, Aborted, Skipped, Pending and the zero value Invalid. -/
inductive SpecState where
  | Invalid
  | Pending
  | Skipped
  | Passed
  | Failed
  | Aborted
  | Panicked
  | Interrupted
  | Timedout
deriving DecidableEq, Repr

/-- Modelled from the spec: "Interrupted/Aborted/Failed/Panicked/Timedout are
collectively failure states" (`types.SpecStateFailureStates`). -/
def SpecState.isFailureState : SpecState → Bool
  | .Failed | .Aborted | .Panicked | .Interrupted | .Timedout => true
  | _ => false

/-- Modelled from the spec: the node-type enumeration of the `types` package
(containers, setup/teardown, leaf, suite-level, reporting and cleanup nodes). -/
inductive NodeType where
  | Invalid
  | Container
  | It
  | BeforeEach
  | JustBeforeEach
  | AfterEach
  | JustAfterEach
  | BeforeAll
  | AfterAll
  | BeforeSuite
  | SynchronizedBeforeSuite
  | AfterSuite
  | SynchronizedAfterSuite
  | ReportBeforeEach
  | ReportAfterEach
  | ReportAfterSuite
  | CleanupInvalid
  | CleanupAfterEach
  | CleanupAfterAll
  | CleanupAfterSuite
deriving DecidableEq, Repr

/-- The node-type mask tested at the top of `runNode`:
`NodeTypeCleanupAfterEach | NodeTypeCleanupAfterAll | NodeTypeCleanupAfterSuite`. -/
def NodeType.isCleanup : NodeType → Bool
  | .CleanupAfterEach | .CleanupAfterAll | .CleanupAfterSuite => true
  | _ => false

/-- Modelled from the spec: the three-level interrupt escalation of the
`interrupt_handler` package plus its zero value
("BailOut (terminate now, skip cleanup/reporting), CleanupAndReport,
ReportOnly"). -/
inductive InterruptLevel where
  | Uninterrupted
  | CleanupAndReport
  | ReportOnly
  | BailOut
deriving DecidableEq, Repr

/-- Modelled from the spec: the interrupt handler's status value: a level, a
human-readable cause message, and whether a progress report should accompany
it ("polled via Status() (level + cause + whether a progress report should
accompany it)"). -/
structure InterruptStatus where
  level : InterruptLevel
  message : String
  shouldIncludeProgressReport : Bool
deriving DecidableEq, Repr

/-- Modelled from the spec: `InterruptStatus.Interrupted()` is true once any
escalation level has been reached, i.e. the level is not the zero level. -/
def InterruptStatus.interrupted (st : InterruptStatus) : Bool :=
  st.level != .Uninterrupted

/-- A progress report is kept abstract: only its message is modelled, since
`runNode` treats the report itself as an opaque payload. -/
structure ProgressReportM where
  message : String
deriving DecidableEq, Repr

/-- Modelled from the spec: `types.FailureNodeContext` — whether the failing
node was a leaf, at top level, or in a container (plus the zero value). -/
inductive FailureNodeContext where
  | Invalid
  | LeafNode
  | TopLevel
  | InContainer
deriving DecidableEq, Repr

/-- The fields of `types.Failure` that `suite.go` reads or writes:
message, source location, forwarded panic, the failure-node description
fields, and the optional embedded progress report. Code locations are
modelled as strings. -/
structure Failure where
  message : String
  location : String
  forwardedPanic : String
  failureNodeContext : FailureNodeContext
  failureNodeType : NodeType
  failureNodeLocation : String
  failureNodeContainerIndex : Int
  progressReport : Option ProgressReportM
deriving DecidableEq, Repr

/-- The zero `types.Failure{}` value. -/
def emptyFailure : Failure :=
  { message := ""
    location := ""
    forwardedPanic := ""
    failureNodeContext := .Invalid
    failureNodeType := .Invalid
    failureNodeLocation := ""
    failureNodeContainerIndex := 0
    progressReport := none }

/-- The fields of an `internal.Node` that `suite.go` reads or writes.
The body closure is not part of the data; bodies are supplied as explicit
oracles where a model needs a body's result. -/
structure Node where
  id : Nat
  nodeType : NodeType
  text : String
  codeLocation : String
  nestingLevel : Int
  hasContext : Bool
  nodeTimeout : Duration
  gracePeriod : Duration
  nodeIDWhereCleanupWasGenerated : Nat
  markedSuppressProgressReporting : Bool
deriving DecidableEq, Repr

/-- Modelled from the spec: `Node.IsZero()` of the `internal` package
recognises the zero node; node identity is carried by `id`, with `0` the
zero value. -/
def Node.isZero (n : Node) : Bool :=
  n.id == 0

/-
Deadline resolution in `runNode` (suite.go lines 700-727).
-/

/-- Lines 700-703 of `runNode`: the grace period starts from the suite
configuration and is replaced by the node's own grace period when that is
non-negative (negative means "inherit"). -/
def resolveGracePeriod (configGracePeriod : Duration) (node : Node) : Duration :=
  if node.gracePeriod ≥ 0 then node.gracePeriod else configGracePeriod

/-- Lines 705-720 of `runNode`: the effective deadline.  Starting from the
suite deadline, it is replaced by the spec deadline when the suite deadline
is zero or the spec deadline is set and earlier; then replaced by
`now + NodeTimeout` when the node declares a positive timeout and either no
deadline is set or more than the timeout remains; finally, when the result
is set but already past, or an interrupt is pending, it becomes
`now + NodeTimeout` when the node has a timeout and `now + gracePeriod`
otherwise.  `gracePeriod` here is the value of `resolveGracePeriod`, before
the later `HasContext` zeroing. -/
def resolveDeadline (suiteDeadline specDeadline now : Time)
    (nodeTimeout gracePeriod : Duration) (interrupted : Bool) : Time :=
  let d1 := if suiteDeadline = 0 ∨ (specDeadline ≠ 0 ∧ specDeadline < suiteDeadline) then
      specDeadline
    else suiteDeadline
  let d2 := if nodeTimeout > 0 ∧ (d1 = 0 ∨ d1 - now > nodeTimeout) then
      now + nodeTimeout
    else d1
  if (d2 ≠ 0 ∧ d2 < now) ∨ interrupted = true then
    if nodeTimeout > 0 then now + nodeTimeout else now + gracePeriod
  else d2

/-- The claim's reading of deadline resolution, phrased from the spec's words:
start from the suite-wide deadline; replace it with the spec-level deadline
when the suite deadline is unset, or when the spec deadline is set and
strictly earlier; if the node declares a positive node timeout and either no
deadline is set or the remaining time exceeds that timeout, the deadline
becomes now plus the node timeout; and when the resulting deadline is set
but already in the past, or an interrupt is already pending, a fresh
deadline of now plus the node timeout (when the node has one) else now plus
the grace period is used instead. -/
def resolveDeadlineSpec (suiteDeadline specDeadline now : Time)
    (nodeTimeout gracePeriod : Duration) (interrupted : Bool) : Time :=
  let base := if suiteDeadline = 0 then specDeadline
    else if specDeadline ≠ 0 ∧ specDeadline < suiteDeadline then specDeadline
    else suiteDeadline
  let withNodeTimeout :=
    if nodeTimeout > 0 ∧ (base = 0 ∨ base - now > nodeTimeout) then now + nodeTimeout
    else base
  let pastAlready := withNodeTimeout ≠ 0 ∧ withNodeTimeout < now
  if pastAlready ∨ interrupted = true then
    if nodeTimeout > 0 then now + nodeTimeout else now + gracePeriod
  else withNodeTimeout

/-- Lines 722-727 of `runNode`: after deadline resolution, a node without
context support has its grace period forced to zero. This is the grace
period the waiting loop's grace-period waits use. -/
def effectiveGracePeriod (configGracePeriod : Duration) (node : Node) : Duration :=
  if node.hasContext = false then 0 else resolveGracePeriod configGracePeriod node

/-
The waiting loop of `runNode` (suite.go lines 778-871), modelled as a state
machine.  The loop state tracks the `outcome` and `failure` variables and
whether the deadline channel and the grace-period channel are live
(`time.After` channels; `nil` channels never fire).  `graceStarts` counts how
often a grace-period wait has been started.  Events are the five `select`
cases; the body's completion is an event carrying the worker's outcome and
failure, progress-report payloads are carried by the events that capture
them.  A step either continues the loop with a new state or returns a
`(SpecState, Failure)` pair, exactly as the source's `select` cases do.
-/

structure LoopState where
  outcome : SpecState
  failure : Failure
  deadlineActive : Bool
  graceActive : Bool
  graceStarts : Nat
deriving DecidableEq, Repr

inductive LoopEvent where
  | completion (outcomeFromRun : SpecState) (failureFromRun : Failure)
  | graceExpiry
  | deadlineExpiry (pr : ProgressReportM)
  | interrupt (st : InterruptStatus) (pr : ProgressReportM)
  | progressPoll
deriving DecidableEq, Repr

inductive StepOutcome where
  | cont (s : LoopState)
  | ret (state : SpecState) (failure : Failure)
deriving DecidableEq, Repr

/-- The message prefix used at lines 790-791 when a timed-out node's body
later completes with a non-passed outcome. -/
def timedoutLateFailureBanner : String :=
  "This spec timed out and reported the following failure after the timeout:\n\n"

/-- One iteration of the waiting loop (lines 778-871), per `select` case:

* completion (lines 780-800): an already-interrupted run returns unchanged;
  an already-timed-out run adopts a non-passed late failure's location,
  forwarded panic and banner-prefixed message but still returns `Timedout`;
  otherwise a passed run returns `(Passed, Failure{})` and a non-passed run
  returns the worker's outcome with the prefilled failure carrying the
  worker's message, location and forwarded panic.
* grace-period expiry (lines 801-807): return the current outcome/failure.
* deadline expiry (lines 808-819): record `Timedout`, capture the progress
  report, disable the deadline channel and start the grace-period wait.
* interrupt (lines 820-862): disable the deadline channel; on a first
  interrupt (outcome still the zero state) record `Interrupted` with the
  status message and, when requested, a progress report; a BailOut level
  returns immediately; otherwise the grace-period wait is started when none
  is pending, and when one is pending the loop returns immediately.
* progress poll (lines 863-869): emit a report and continue unchanged. -/
def runNodeStep (node : Node) (s : LoopState) : LoopEvent → StepOutcome
  | .completion o f =>
    if s.outcome = .Interrupted then .ret s.outcome s.failure
    else if s.outcome = .Timedout then
      if o ≠ .Passed then
        .ret s.outcome { s.failure with
          location := f.location
          forwardedPanic := f.forwardedPanic
          message := timedoutLateFailureBanner ++ f.message }
      else .ret s.outcome s.failure
    else if o = .Passed then .ret o emptyFailure
    else .ret o { s.failure with
      message := f.message
      location := f.location
      forwardedPanic := f.forwardedPanic }
  | .graceExpiry => .ret s.outcome s.failure
  | .deadlineExpiry pr =>
    .cont { s with
      outcome := .Timedout
      failure := { s.failure with
        message := "Timedout"
        location := node.codeLocation
        progressReport := some pr }
      deadlineActive := false
      graceActive := true
      graceStarts := s.graceStarts + 1 }
  | .interrupt st pr =>
    let s1 : LoopState := { s with deadlineActive := false }
    let s2 : LoopState :=
      if s1.outcome = .Invalid then
        { s1 with
          outcome := .Interrupted
          failure := { s1.failure with
            message := st.message
            location := node.codeLocation
            progressReport :=
              if st.shouldIncludeProgressReport then some pr else s1.failure.progressReport } }
      else s1
    if st.level = .BailOut then .ret s2.outcome s2.failure
    else if s2.graceActive then .ret s2.outcome s2.failure
    else .cont { s2 with graceActive := true, graceStarts := s2.graceStarts + 1 }
  | .progressPoll => .cont s

/-- The grace-period-expiry case (lines 802-806) emits a leaked-node progress
report exactly when the node has context support and the recorded outcome is
`Timedout`; no other `select` case emits that report. -/
def runNodeStepEmitsLeakReport (node : Node) (s : LoopState) : LoopEvent → Bool
  | .graceExpiry => node.hasContext && s.outcome == .Timedout
  | _ => false

/-- Which events the `select` statement can actually deliver in a state: the
deadline and grace-period channels only fire while live, and the interrupt
channel only fires once an interrupt level has been reached. -/
def LoopEvent.enabledIn (s : LoopState) : LoopEvent → Bool
  | .graceExpiry => s.graceActive
  | .deadlineExpiry _ => s.deadlineActive
  | .interrupt st _ => st.level != .Uninterrupted
  | _ => true

/-- Modelled from the spec: `types.NodeTypesForSuiteLevelNodes` — the suite
level node types (before/after-suite, their synchronized variants,
cleanup-after-suite and report-after-suite). -/
def NodeType.isForSuiteLevel : NodeType → Bool
  | .BeforeSuite | .SynchronizedBeforeSuite | .AfterSuite | .SynchronizedAfterSuite
  | .CleanupAfterSuite | .ReportAfterSuite => true
  | _ => false

/-- Lines 689-697 of `runNode`: the prefilled failure value carrying the
failure-node description before the loop starts. -/
def initialFailure (node : Node) : Failure :=
  let f0 := { emptyFailure with
    failureNodeType := node.nodeType
    failureNodeLocation := node.codeLocation }
  if node.nodeType = .It ∨ node.nodeType.isForSuiteLevel then
    { f0 with failureNodeContext := .LeafNode }
  else if node.nestingLevel ≤ 0 then
    { f0 with failureNodeContext := .TopLevel }
  else
    { f0 with
      failureNodeContext := .InContainer
      failureNodeContainerIndex := node.nestingLevel - 1 }

/-- The loop's entry state: outcome is the zero spec state, the failure is
prefilled, the deadline channel is live exactly when a deadline is set
(lines 736-739), and no grace-period wait has been started. -/
def initLoopState (node : Node) (deadlineSet : Bool) : LoopState :=
  { outcome := .Invalid
    failure := initialFailure node
    deadlineActive := deadlineSet
    graceActive := false
    graceStarts := 0 }

/-- States the waiting loop can actually be in: the entry state, or the
result of a continuing step on a deliverable event. -/
inductive LoopReachable (node : Node) : LoopState → Prop where
  | init (deadlineSet : Bool) : LoopReachable node (initLoopState node deadlineSet)
  | step {s s' : LoopState} (e : LoopEvent) :
      LoopReachable node s → e.enabledIn s = true →
      runNodeStep node s e = .cont s' → LoopReachable node s'

/-- Structural invariant of the waiting loop: while a grace period is
pending the outcome is `Timedout` or `Interrupted`, exactly one grace period
has been started and the deadline channel is dead; while none is pending,
none has ever been started; and a live loop's outcome is always the zero
state, `Timedout` or `Interrupted`. -/
def LoopInv (s : LoopState) : Prop :=
  (s.graceActive = true →
    (s.outcome = .Timedout ∨ s.outcome = .Interrupted) ∧
      s.graceStarts = 1 ∧ s.deadlineActive = false) ∧
  (s.graceActive = false → s.graceStarts = 0) ∧
  (s.outcome = .Invalid ∨ s.outcome = .Timedout ∨ s.outcome = .Interrupted)

/-
Concrete fixtures used to evaluate the definitions at specific inputs.
-/

/-- A leaf node with context support. -/
def nodeA : Node :=
  { id := 1
    nodeType := .It
    text := "does the thing"
    codeLocation := "suite_a.go:10"
    nestingLevel := 1
    hasContext := true
    nodeTimeout := 0
    gracePeriod := -1
    nodeIDWhereCleanupWasGenerated := 0
    markedSuppressProgressReporting := false }

/-- A leaf node without context support. -/
def nodeNoCtx : Node :=
  { id := 2
    nodeType := .It
    text := "legacy body"
    codeLocation := "suite_a.go:20"
    nestingLevel := 1
    hasContext := false
    nodeTimeout := 0
    gracePeriod := -1
    nodeIDWhereCleanupWasGenerated := 0
    markedSuppressProgressReporting := false }

/-- A failure as a worker would deliver it on the failure channel. -/
def lateFailure : Failure :=
  { emptyFailure with
    message := "late assertion failed"
    location := "suite_a.go:11"
    forwardedPanic := "" }

/-- A concrete progress-report payload. -/
def prA : ProgressReportM := { message := "node is stuck in body" }

/-- A first-interrupt status at the cleanup-and-report level. -/
def cleanupInterrupt : InterruptStatus :=
  { level := .CleanupAndReport
    message := "Interrupted by User"
    shouldIncludeProgressReport := true }

/-- The loop state reached from the entry state of `nodeA` (deadline set)
after the deadline fires. -/
def sTimedout : LoopState :=
  { outcome := .Timedout
    failure := { initialFailure nodeA with
      message := "Timedout"
      location := nodeA.codeLocation
      progressReport := some prA }
    deadlineActive := false
    graceActive := true
    graceStarts := 1 }

/-- A loop state in which an interrupt has been recorded and the grace
period is pending. -/
def sInterrupted : LoopState :=
  { outcome := .Interrupted
    failure := { initialFailure nodeA with
      message := "Interrupted by User"
      location := nodeA.codeLocation }
    deadlineActive := false
    graceActive := true
    graceStarts := 1 }

/-
Cleanup-node registry: the entry of `runNode` (lines 653-667) and
`pushCleanupNode` (lines 221-244).
-/

/-- Modelled from the spec: `Nodes.WithoutNode` of the `internal` package —
the pending cleanup list without the given node, nodes being identified by
their `id` ("removed from the pending cleanup list"). -/
def withoutNode (nodes : List Node) (node : Node) : List Node :=
  nodes.filter (fun n => n.id ≠ node.id)

/-- The result of `runNode`'s entry section: the updated pending cleanup
list and, when the interrupt level forbids this node type, the early
`(Skipped, Failure{})` return. -/
structure EnterResult where
  cleanupNodes : List Node
  earlyReturn : Option (SpecState × Failure)
deriving DecidableEq, Repr

/-- Lines 653-667 of `runNode`: a cleanup node is first removed from the
pending cleanup list; then a BailOut-level interrupt, a ReportOnly-level
interrupt with a node type outside the report whitelist, or a
CleanupAndReport-level interrupt with a node type outside both whitelists,
each cause an immediate `(Skipped, Failure{})` return.  The whitelists
`types.NodeTypesAllowedDuringReportInterrupt` and
`types.NodeTypesAllowedDuringCleanupInterrupt` live outside this file and
are passed in as predicates. -/
def runNodeEnter (cleanupNodes : List Node) (node : Node) (st : InterruptStatus)
    (allowedDuringReport allowedDuringCleanup : NodeType → Bool) : EnterResult :=
  let cn := if node.nodeType.isCleanup then withoutNode cleanupNodes node else cleanupNodes
  if st.level = .BailOut then
    { cleanupNodes := cn, earlyReturn := some (.Skipped, emptyFailure) }
  else if st.level = .ReportOnly ∧ allowedDuringReport node.nodeType = false then
    { cleanupNodes := cn, earlyReturn := some (.Skipped, emptyFailure) }
  else if st.level = .CleanupAndReport ∧
      (allowedDuringReport node.nodeType || allowedDuringCleanup node.nodeType) = false then
    { cleanupNodes := cn, earlyReturn := some (.Skipped, emptyFailure) }
  else
    { cleanupNodes := cn, earlyReturn := none }

/-- The run phases of a suite (lines 14-20). -/
inductive Phase where
  | BuildTopLevel
  | BuildTree
  | Run
deriving DecidableEq, Repr

/-- Modelled from the spec: the structured construction errors of
`types.GinkgoErrors` used by the registration paths and the
synchronized-before-suite secondary path, as plain tags. -/
inductive GError where
  | PushingCleanupNodeDuringTreeConstruction
  | PushingCleanupInReportingNode
  | PushingCleanupInCleanupNode
  | AddReportEntryNotDuringRunPhase
deriving DecidableEq, Repr

/-- The suite fields `pushCleanupNode` reads or writes. -/
structure SuiteCleanupView where
  phase : Phase
  currentNode : Node
  cleanupNodes : List Node
deriving DecidableEq, Repr

/-- Lines 221-244, `pushCleanupNode`: outside the run phase or with no node
executing, registration is rejected; the new node's effective cleanup type
is derived from the currently executing node's type, with registration
during a reporting node or another cleanup node rejected; an accepted node
also records the originating node's id and nesting level and is appended to
the pending cleanup list.  Rejections return the error and leave the suite
unchanged. -/
def pushCleanupNode (suite : SuiteCleanupView) (node : Node) :
    Option GError × SuiteCleanupView :=
  if suite.phase ≠ .Run ∨ suite.currentNode.isZero then
    (some .PushingCleanupNodeDuringTreeConstruction, suite)
  else
    match suite.currentNode.nodeType with
    | .BeforeSuite | .SynchronizedBeforeSuite | .AfterSuite | .SynchronizedAfterSuite =>
      (none, { suite with cleanupNodes := suite.cleanupNodes ++
        [{ node with
            nodeType := .CleanupAfterSuite
            nodeIDWhereCleanupWasGenerated := suite.currentNode.id
            nestingLevel := suite.currentNode.nestingLevel }] })
    | .BeforeAll | .AfterAll =>
      (none, { suite with cleanupNodes := suite.cleanupNodes ++
        [{ node with
            nodeType := .CleanupAfterAll
            nodeIDWhereCleanupWasGenerated := suite.currentNode.id
            nestingLevel := suite.currentNode.nestingLevel }] })
    | .ReportBeforeEach | .ReportAfterEach | .ReportAfterSuite =>
      (some .PushingCleanupInReportingNode, suite)
    | .CleanupInvalid | .CleanupAfterEach | .CleanupAfterAll | .CleanupAfterSuite =>
      (some .PushingCleanupInCleanupNode, suite)
    | _ =>
      (none, { suite with cleanupNodes := suite.cleanupNodes ++
        [{ node with
            nodeType := .CleanupAfterEach
            nodeIDWhereCleanupWasGenerated := suite.currentNode.id
            nestingLevel := suite.currentNode.nestingLevel }] })

/-- A cleanup node pending in the registry. -/
def cleanupNodeC : Node :=
  { id := 7
    nodeType := .CleanupAfterEach
    text := ""
    codeLocation := "suite_a.go:30"
    nestingLevel := 1
    hasContext := false
    nodeTimeout := 0
    gracePeriod := -1
    nodeIDWhereCleanupWasGenerated := 1
    markedSuppressProgressReporting := false }

/-- A second pending cleanup node. -/
def cleanupNodeD : Node :=
  { cleanupNodeC with id := 8, codeLocation := "suite_a.go:40" }

/-- A suite in the run phase whose currently executing node is itself a
cleanup node. -/
def suiteInCleanup : SuiteCleanupView :=
  { phase := .Run, currentNode := cleanupNodeC, cleanupNodes := [cleanupNodeD] }

/-
The run loop `runSpecs` (lines 343-427) and its helpers `runBeforeSuite`
(429-448), `runAfterSuiteCleanup` (450-482), `runReportAfterSuite` (484-499)
and `processCurrentSpecReport` (325-341).  Group execution and the parallel
client are external collaborators, so the model takes as inputs the
spec-report states the run produced in each phase, whether the index counter
ever returned an error, whether the interrupt handler reported an interrupt
at the end, and the recorded end time.  `runSpecs` itself has no early
returns: its loop exits by `break`, so the model is the straight-line
sequence of the source's statements.
-/

/-- The inputs of one `runSpecs` execution that determine
`report.SuiteSucceeded` and which phases run.  `beforeSuiteStates` holds the
state of the before-suite report when one was run (empty when no
before-suite node exists or no specs would run); `mainStates` the states of
the spec reports processed during the main loop; `afterSuiteStates` those of
the after-suite node and cleanup-after-suite nodes; `reportAfterSuiteStates`
those of the report-after-suite nodes (processed only on process 1). -/
structure RunSpecsInput where
  beforeSuiteStates : List SpecState
  mainStates : List SpecState
  fetchFailed : Bool
  hasPending : Bool
  failOnPending : Bool
  afterSuiteStates : List SpecState
  interrupted : Bool
  endTime : Time
  suiteDeadline : Time
  parallelProcess : Nat
  reportAfterSuiteStates : List SpecState
deriving DecidableEq, Repr

/-- The phases `runSpecs` passes through, in order. -/
inductive RunPhaseEvent where
  | beforeSuite
  | mainLoop
  | afterSuiteCleanup
  | reportAfterSuite
  | suiteDidEnd
deriving DecidableEq, Repr

/-- `processCurrentSpecReport` (lines 325-341) as it affects
`report.SuiteSucceeded`, folded over the processed reports' states: a report
whose state is a failure state clears the flag, nothing sets it back. -/
def processSpecReportStates (succeeded : Bool) (states : List SpecState) : Bool :=
  states.foldl (fun acc st => if st.isFailureState then false else acc) succeeded

/-- `runSpecs` (lines 343-427): `SuiteSucceeded` starts true (line 364); the
before-suite report is processed; only while still succeeding does the main
loop run, where an index-fetch error clears the flag (lines 377-379) and
pending specs under fail-on-pending clear it (lines 398-401); after-suite and
cleanup-after-suite reports are always processed (line 404); an interrupt
clears the flag (lines 406-410); an end time past a set suite deadline
clears it (lines 413-416); on process 1 the report-after-suite reports are
processed (lines 418-420); the final flag is returned (line 426).  The
second component lists the phases reached, `afterSuiteCleanup` standing for
the unconditional `runAfterSuiteCleanup` call. -/
def runSpecsModel (inp : RunSpecsInput) : Bool × List RunPhaseEvent :=
  let s1 := processSpecReportStates true inp.beforeSuiteStates
  let s2 :=
    if s1 then
      let sLoop := processSpecReportStates s1 inp.mainStates
      let sFetch := if inp.fetchFailed then false else sLoop
      if inp.hasPending && inp.failOnPending then false else sFetch
    else s1
  let s3 := processSpecReportStates s2 inp.afterSuiteStates
  let s4 := if inp.interrupted then false else s3
  let s5 := if inp.suiteDeadline ≠ 0 ∧ inp.suiteDeadline < inp.endTime then false else s4
  let s6 :=
    if inp.parallelProcess = 1 then processSpecReportStates s5 inp.reportAfterSuiteStates
    else s5
  (s6,
    (if inp.beforeSuiteStates.isEmpty then [] else [RunPhaseEvent.beforeSuite]) ++
    (if s1 then [RunPhaseEvent.mainLoop] else []) ++
    [RunPhaseEvent.afterSuiteCleanup] ++
    (if inp.parallelProcess = 1 then [RunPhaseEvent.reportAfterSuite] else []) ++
    [RunPhaseEvent.suiteDidEnd])

/-- A run in which the index counter fails on the first fetch and everything
else is benign. -/
def fetchErrInput : RunSpecsInput :=
  { beforeSuiteStates := [.Passed]
    mainStates := []
    fetchFailed := true
    hasPending := false
    failOnPending := false
    afterSuiteStates := [.Passed]
    interrupted := false
    endTime := 100
    suiteDeadline := 0
    parallelProcess := 1
    reportAfterSuiteStates := [] }

/-
`runSuiteNode` for a SynchronizedBeforeSuite node on a secondary process
(lines 575-591) and the client-error fixup shared by all suite nodes
(lines 616-618).
-/

/-- The payload broadcast from process 1 (a byte slice in the source). -/
abbrev SyncData := List Nat

/-- Modelled from the spec: the dedicated "failed on proc 1" error
`types.GinkgoErrors.SynchronizedBeforeSuiteFailedOnProc1()`, kept as its
message string. -/
def synchronizedBeforeSuiteFailedOnProc1Message : String :=
  "SynchronizedBeforeSuite failed on Ginkgo parallel process #1"

/-- Lines 874-882, `failureForLeafNodeWithMessage`: a synthesized leaf-node
failure carrying a message and the node's location. -/
def failureForLeafNodeWithMessage (node : Node) (message : String) : Failure :=
  { emptyFailure with
    message := message
    location := node.codeLocation
    failureNodeContext := .LeafNode
    failureNodeType := node.nodeType
    failureNodeLocation := node.codeLocation }

/-- What the secondary-process branch produces: the recorded state and
failure of the current spec report, whether the all-procs body ran, and the
payload it was given. -/
structure SyncBeforeSecondaryResult where
  state : SpecState
  failure : Failure
  allProcsBodyRan : Bool
  payloadUsed : Option SyncData
deriving DecidableEq, Repr

/-- Lines 575-591 and 616-618 of `runSuiteNode` on a secondary process: the
process blocks for the broadcast proc-1 `(state, data, err)` triple
(supplied here as inputs); the switch on the proc-1 state sets `runAllProcs`
on `Passed`, replaces `err` with the failed-on-proc-1 error on
`Failed`/`Panicked`/`Timedout`, and records the proc-1 state verbatim on
`Interrupted`/`Aborted`/`Skipped`; when `runAllProcs` is set the all-procs
body runs with the received payload (its `runNode` outcome supplied as an
oracle); finally a non-nil `err` with the recorded state not a failure state
becomes a synthesized `Failed` leaf-node failure.  The current spec report
enters the branch freshly zeroed (state `Invalid`, empty failure,
lines 453-459 and 433-437). -/
def runSuiteNodeSyncBeforeSecondary (node : Node)
    (proc1State : SpecState) (data : SyncData) (clientErr : Option String)
    (allProcsResult : SyncData → SpecState × Failure) : SyncBeforeSecondaryResult :=
  let runAllProcs : Bool :=
    match proc1State with
    | .Passed => true
    | _ => false
  let err : Option String :=
    match proc1State with
    | .Failed | .Panicked | .Timedout => some synchronizedBeforeSuiteFailedOnProc1Message
    | _ => clientErr
  let st1 : SpecState :=
    match proc1State with
    | .Interrupted | .Aborted | .Skipped => proc1State
    | _ => .Invalid
  let res : SyncBeforeSecondaryResult :=
    if runAllProcs then
      { state := (allProcsResult data).1
        failure := (allProcsResult data).2
        allProcsBodyRan := true
        payloadUsed := some data }
    else
      { state := st1
        failure := emptyFailure
        allProcsBodyRan := false
        payloadUsed := none }
  match err with
  | some msg =>
    if res.state.isFailureState = false then
      { res with state := .Failed, failure := failureForLeafNodeWithMessage node msg }
    else res
  | none => res

/-- A synchronized-before-suite node. -/
def nodeSB : Node :=
  { id := 3
    nodeType := .SynchronizedBeforeSuite
    text := ""
    codeLocation := "suite_setup.go:5"
    nestingLevel := 0
    hasContext := false
    nodeTimeout := 0
    gracePeriod := -1
    nodeIDWhereCleanupWasGenerated := 0
    markedSuppressProgressReporting := false }

/-- An all-procs body outcome: passes and leaves no failure. -/
def allProcsOracle : SyncData → SpecState × Failure :=
  fun _ => (.Passed, emptyFailure)

/-
`CurrentSpecReport` (lines 260-270) and `AddReportEntry` (lines 272-280).
A Go slice value is modelled as an index into a store of buffers so that
aliasing and defensive copying are observable; `storeRead` dereferences,
`storeWrite` mutates a buffer in place (what a caller mutating a returned
slice would do).  Go `append` is modelled as allocating a fresh buffer with
the extended contents.
-/

/-- A report entry: the engine treats entries as opaque values. -/
structure ReportEntry where
  name : String
  location : String
deriving DecidableEq, Repr

/-- The heap of entry buffers; a slice reference is an index into it. -/
abbrev EntryStore := List (List ReportEntry)

/-- Dereference a slice reference. -/
def storeRead (σ : EntryStore) (r : Nat) : List ReportEntry :=
  σ[r]?.getD []

/-- Overwrite the buffer behind a slice reference in place. -/
def storeWrite (σ : EntryStore) (r : Nat) (l : List ReportEntry) : EntryStore :=
  σ.set r l

/-- The zero report entry (what Go `make` fills a fresh buffer with). -/
def defaultEntry : ReportEntry := { name := "", location := "" }

/-- Go `copy(dst, src)`: the destination buffer with its first
`min (len dst) (len src)` elements replaced by the source's. -/
def goCopy (dst src : List ReportEntry) : List ReportEntry :=
  src.take dst.length ++ dst.drop src.length

/-- The fields of `types.SpecReport` these two accessors touch: the captured
writer output and the report-entries slice (held as a store reference). -/
structure SpecReportM where
  state : SpecState
  capturedGinkgoWriterOutput : String
  reportEntries : Nat
deriving DecidableEq, Repr

/-- The suite fields `CurrentSpecReport` and `AddReportEntry` read or write;
`writerBytes = none` models `suite.writer == nil`. -/
structure SuiteReportView where
  phase : Phase
  currentSpecReport : SpecReportM
  writerBytes : Option String
deriving DecidableEq, Repr

/-- Lines 260-270, `CurrentSpecReport`: copy the current report by value;
when a writer is attached capture its bytes; `make` a fresh entry buffer of
the same length and `copy` the current entries into it; return the report.
The suite value and the store are threaded through to exhibit what the call
did to them. -/
def CurrentSpecReport (suite : SuiteReportView) (σ : EntryStore) :
    SpecReportM × SuiteReportView × EntryStore :=
  let report := suite.currentSpecReport
  let report := match suite.writerBytes with
    | some bs => { report with capturedGinkgoWriterOutput := bs }
    | none => report
  let contents := storeRead σ suite.currentSpecReport.reportEntries
  let newRef := σ.length
  let σ1 := σ ++ [List.replicate contents.length defaultEntry]
  let σ2 := storeWrite σ1 newRef (goCopy (storeRead σ1 newRef) contents)
  ({ report with reportEntries := newRef }, suite, σ2)

/-- Lines 272-280, `AddReportEntry`: outside the run phase the call returns
an error and changes nothing; otherwise the entry is appended to the current
spec report's entries and nil is returned. -/
def AddReportEntry (suite : SuiteReportView) (σ : EntryStore) (entry : ReportEntry) :
    Option GError × SuiteReportView × EntryStore :=
  if suite.phase ≠ .Run then
    (some .AddReportEntryNotDuringRunPhase, suite, σ)
  else
    let contents := storeRead σ suite.currentSpecReport.reportEntries
    let newRef := σ.length
    (none,
     { suite with currentSpecReport :=
        { suite.currentSpecReport with reportEntries := newRef } },
     σ ++ [contents ++ [entry]])

/-- A suite in the run phase whose current report has one entry in buffer 0. -/
def suiteWithEntry : SuiteReportView :=
  { phase := .Run
    currentSpecReport := { state := .Invalid, capturedGinkgoWriterOutput := "", reportEntries := 0 }
    writerBytes := some "gw output" }

/-- A one-buffer store holding that entry. -/
def storeWithEntry : EntryStore :=
  [[{ name := "entry-1", location := "suite_a.go:12" }]]

/-- The same suite during tree construction. -/
def suiteBuildTree : SuiteReportView :=
  { suiteWithEntry with phase := .BuildTree }

/-- A second report entry. -/
def entryB : ReportEntry := { name := "entry-2", location := "suite_a.go:13" }

end GinkgoSuite

namespace GinkgoSuite

theorem loopInv_of_reachable {node : Node} {s : LoopState}
    (h : LoopReachable node s) : LoopInv s := by
  induction h with
  | init d => simp [LoopInv, initLoopState]
  | @step s s' e hr he hc ih =>
    obtain ⟨ih1, ih2, ih3⟩ := ih
    cases e with
    | completion o f =>
      exfalso
      simp only [runNodeStep] at hc
      split_ifs at hc
    | graceExpiry =>
      exfalso
      simp only [runNodeStep] at hc
      exact absurd hc (by simp)
    | deadlineExpiry pr =>
      simp only [runNodeStep, StepOutcome.cont.injEq] at hc
      subst hc
      simp only [LoopEvent.enabledIn] at he
      constructor
      · intro _
        refine ⟨Or.inl rfl, ?_, rfl⟩
        have hga : s.graceActive = false := by
          by_contra hga
          have := ih1 (by revert hga; cases h : s.graceActive <;> simp)
          exact absurd this.2.2 (by simp [he])
        simp [ih2 hga]
      · refine ⟨by simp, by simp⟩
    | interrupt st pr =>
      simp only [runNodeStep] at hc
      by_cases h0 : s.outcome = .Invalid <;>
        simp only [h0, if_true, if_false, reduceIte] at hc <;>
        split_ifs at hc with h1 h2 <;>
        simp only [StepOutcome.cont.injEq] at hc <;>
        subst hc <;>
        simp_all [LoopInv]
    | progressPoll =>
      simp only [runNodeStep, StepOutcome.cont.injEq] at hc
      subst hc
      exact ⟨ih1, ih2, ih3⟩

theorem sTimedout_reachable : LoopReachable nodeA sTimedout :=
  LoopReachable.step (.deadlineExpiry prA) (LoopReachable.init true) (by decide) (by decide)

end GinkgoSuite

namespace GinkgoSuite

/-- C2: for every call to runNode, the effective deadline is computed as:
start from the suite-wide deadline; replace it with the spec-level deadline
when the suite deadline is unset or the spec deadline is earlier; then, if
the node declares a positive NodeTimeout and either no deadline is set or
the remaining time exceeds that timeout, set the deadline to
now + NodeTimeout; finally, if the resulting deadline is already in the past
or an interrupt is already pending, the node is given a fresh deadline of
now + NodeTimeout (when the node has one) else now + grace period. Stated
as: the source computation agrees with the claim's computation everywhere. -/
theorem runNode_deadline_resolution (suiteDeadline specDeadline now : Time)
    (nodeTimeout gracePeriod : Duration) (interrupted : Bool) :
    resolveDeadline suiteDeadline specDeadline now nodeTimeout gracePeriod interrupted =
      resolveDeadlineSpec suiteDeadline specDeadline now nodeTimeout gracePeriod interrupted := by
  unfold resolveDeadline resolveDeadlineSpec
  by_cases h1 : suiteDeadline = 0 <;>
    by_cases h2 : specDeadline ≠ 0 ∧ specDeadline < suiteDeadline <;>
      simp [h1, h2]

/-- C1: in runNode's waiting loop, when the body completes: an already
recorded `Interrupted` outcome discards the late completion and returns the
recorded outcome and failure unchanged; an already recorded `Timedout`
outcome with a non-passed late result returns `Timedout` with the late
failure's location and forwarded panic adopted and its message appended to
the fixed timed-out banner, and with a passed late result returns `Timedout`
with the failure unchanged; and with no recorded outcome the worker's own
outcome is returned with the worker's failure content (message, location,
forwarded panic), the failure being empty when the outcome is `Passed`. -/
theorem runNode_late_completion_resolution (node : Node) (s : LoopState)
    (o : SpecState) (f : Failure) :
    (s.outcome = .Interrupted →
      runNodeStep node s (.completion o f) = .ret .Interrupted s.failure) ∧
    (s.outcome = .Timedout → o ≠ .Passed →
      runNodeStep node s (.completion o f) = .ret .Timedout
        { s.failure with
          location := f.location
          forwardedPanic := f.forwardedPanic
          message := timedoutLateFailureBanner ++ f.message }) ∧
    (s.outcome = .Timedout → o = .Passed →
      runNodeStep node s (.completion o f) = .ret .Timedout s.failure) ∧
    (s.outcome = .Invalid → o = .Passed →
      runNodeStep node s (.completion o f) = .ret .Passed emptyFailure) ∧
    (s.outcome = .Invalid → o ≠ .Passed →
      runNodeStep node s (.completion o f) = .ret o
        { s.failure with
          message := f.message
          location := f.location
          forwardedPanic := f.forwardedPanic }) := by
  refine ⟨fun h1 => by simp [runNodeStep, h1],
    fun h1 h2 => by simp [runNodeStep, h1, h2],
    fun h1 h2 => by simp [runNodeStep, h1, h2],
    fun h1 h2 => by simp [runNodeStep, h1, h2],
    fun h1 h2 => by simp [runNodeStep, h1, h2]⟩

/-- Witness for C1: the five completion cases evaluated at concrete states. -/
theorem runNode_late_completion_resolution_witness :
    (runNodeStep nodeA sInterrupted (.completion .Passed lateFailure) =
      .ret .Interrupted sInterrupted.failure) ∧
    (runNodeStep nodeA sTimedout (.completion .Failed lateFailure) =
      .ret .Timedout
        { sTimedout.failure with
          location := lateFailure.location
          forwardedPanic := lateFailure.forwardedPanic
          message := timedoutLateFailureBanner ++ lateFailure.message }) ∧
    (runNodeStep nodeA sTimedout (.completion .Passed lateFailure) =
      .ret .Timedout sTimedout.failure) ∧
    (runNodeStep nodeA (initLoopState nodeA true) (.completion .Passed lateFailure) =
      .ret .Passed emptyFailure) ∧
    (runNodeStep nodeA (initLoopState nodeA true) (.completion .Failed lateFailure) =
      .ret .Failed
        { (initLoopState nodeA true).failure with
          message := lateFailure.message
          location := lateFailure.location
          forwardedPanic := lateFailure.forwardedPanic }) :=
  ⟨(runNode_late_completion_resolution nodeA sInterrupted .Passed lateFailure).1 rfl,
   (runNode_late_completion_resolution nodeA sTimedout .Failed lateFailure).2.1 rfl (by decide),
   (runNode_late_completion_resolution nodeA sTimedout .Passed lateFailure).2.2.1 rfl rfl,
   (runNode_late_completion_resolution nodeA (initLoopState nodeA true) .Passed lateFailure).2.2.2.1 rfl rfl,
   (runNode_late_completion_resolution nodeA (initLoopState nodeA true) .Failed lateFailure).2.2.2.2 rfl (by decide)⟩

/-- C3: a node without context support gets a zero grace period (the waiting
loop's grace-period waits expire immediately), and the grace-period leaked
node progress report is emitted only on grace-period expiry for a node with
context support whose recorded outcome is `Timedout` — in particular never
for a node with `HasContext = false`. -/
theorem runNode_contextless_zero_grace (node : Node) (configGracePeriod : Duration) :
    (node.hasContext = false → effectiveGracePeriod configGracePeriod node = 0) ∧
    (∀ (s : LoopState) (e : LoopEvent),
      runNodeStepEmitsLeakReport node s e = true →
      node.hasContext = true ∧ s.outcome = .Timedout ∧ e = .graceExpiry) := by
  constructor
  · intro h
    simp [effectiveGracePeriod, h]
  · intro s e h
    cases e with
    | completion o f => exact absurd h (by simp [runNodeStepEmitsLeakReport])
    | graceExpiry =>
      simp only [runNodeStepEmitsLeakReport, Bool.and_eq_true, beq_iff_eq] at h
      exact ⟨h.1, h.2, rfl⟩
    | deadlineExpiry pr => exact absurd h (by simp [runNodeStepEmitsLeakReport])
    | interrupt st pr => exact absurd h (by simp [runNodeStepEmitsLeakReport])
    | progressPoll => exact absurd h (by simp [runNodeStepEmitsLeakReport])

/-- Witness for C3: a context-less node's effective grace period is zero, and
a leak report actually emitted pins down a context node timed out at
grace-period expiry. -/
theorem runNode_contextless_zero_grace_witness :
    effectiveGracePeriod 30 nodeNoCtx = 0 ∧
    (nodeA.hasContext = true ∧ sTimedout.outcome = .Timedout ∧
      (LoopEvent.graceExpiry : LoopEvent) = .graceExpiry) :=
  ⟨(runNode_contextless_zero_grace nodeNoCtx 30).1 rfl,
   (runNode_contextless_zero_grace nodeA 30).2 sTimedout .graceExpiry (by decide)⟩

/-- C4: in every reachable state of runNode's waiting loop, at most one
grace-period wait has ever been started; an interrupt arriving while a
grace period is already pending (whether started by a timeout or an earlier
interrupt) makes the loop return immediately with the current outcome and
failure; and a non-BailOut interrupt starts the grace-period wait only when
none is pending. -/
theorem runNode_single_grace_period {node : Node} {s : LoopState}
    (h : LoopReachable node s) :
    s.graceStarts ≤ 1 ∧
    (∀ (st : InterruptStatus) (pr : ProgressReportM), s.graceActive = true →
      runNodeStep node s (.interrupt st pr) = .ret s.outcome s.failure) ∧
    (∀ (st : InterruptStatus) (pr : ProgressReportM),
      st.level ≠ .BailOut → s.graceActive = false →
      ∃ s', runNodeStep node s (.interrupt st pr) = .cont s' ∧
        s'.graceActive = true ∧ s'.graceStarts = s.graceStarts + 1) := by
  obtain ⟨inv1, inv2, inv3⟩ := loopInv_of_reachable h
  refine ⟨?_, ?_, ?_⟩
  · cases hg : s.graceActive
    · simp [inv2 hg]
    · simp [(inv1 hg).2.1]
  · intro st pr hg
    have hout := (inv1 hg).1
    have hne : s.outcome ≠ .Invalid := by
      rcases hout with h' | h' <;> simp [h']
    simp only [runNodeStep, hne, if_false, reduceIte]
    split_ifs <;> simp_all
  · intro st pr hlvl hg
    by_cases h0 : s.outcome = .Invalid <;>
      simp [runNodeStep, h0, hlvl, hg]

/-- Witness for C4: starting from the entry state with a live deadline, the
deadline fires (starting the one grace period); the reached state has at
most one grace start and an interrupt there returns immediately with the
recorded outcome and failure; and before the deadline fired, a first
non-BailOut interrupt starts a grace period. -/
theorem runNode_single_grace_period_witness :
    sTimedout.graceStarts ≤ 1 ∧
    runNodeStep nodeA sTimedout (.interrupt cleanupInterrupt prA) =
      .ret sTimedout.outcome sTimedout.failure ∧
    (∃ s', runNodeStep nodeA (initLoopState nodeA true) (.interrupt cleanupInterrupt prA) = .cont s' ∧
      s'.graceActive = true ∧ s'.graceStarts = (initLoopState nodeA true).graceStarts + 1) :=
  ⟨(runNode_single_grace_period sTimedout_reachable).1,
   (runNode_single_grace_period sTimedout_reachable).2.1 cleanupInterrupt prA rfl,
   (runNode_single_grace_period (LoopReachable.init true)).2.2 cleanupInterrupt prA
     (by decide) rfl⟩

end GinkgoSuite

namespace GinkgoSuite

/-- C5: a cleanup node handed to runNode is removed from the pending cleanup
list at the very start of execution, before the interrupt gating and for
every interrupt status (so it holds even when the node is skipped), and an
attempt to register a new cleanup node while the currently executing node is
itself a cleanup node is rejected with an error and leaves the suite, in
particular its pending cleanup list, unchanged. -/
theorem cleanup_node_removed_before_execution
    (cleanupNodes : List Node) (node : Node) (st : InterruptStatus)
    (ar ac : NodeType → Bool) (suite : SuiteCleanupView) (newNode : Node)
    (hnode : node.nodeType.isCleanup = true)
    (hphase : suite.phase = .Run) (hcur : suite.currentNode.isZero = false)
    (hcn : suite.currentNode.nodeType.isCleanup = true) :
    (runNodeEnter cleanupNodes node st ar ac).cleanupNodes = withoutNode cleanupNodes node ∧
    pushCleanupNode suite newNode = (some .PushingCleanupInCleanupNode, suite) := by
  constructor
  · simp only [runNodeEnter, hnode, if_true]
    split_ifs <;> rfl
  · cases h : suite.currentNode.nodeType <;>
      simp_all [pushCleanupNode, NodeType.isCleanup]

/-- Witness for C5: a concrete cleanup node pulled out of a two-element
registry under a pending interrupt, and a concrete rejected registration. -/
theorem cleanup_node_removed_before_execution_witness :
    (runNodeEnter [cleanupNodeC, cleanupNodeD] cleanupNodeC cleanupInterrupt
        (fun _ => false) (fun _ => false)).cleanupNodes =
      withoutNode [cleanupNodeC, cleanupNodeD] cleanupNodeC ∧
    pushCleanupNode suiteInCleanup nodeA = (some .PushingCleanupInCleanupNode, suiteInCleanup) :=
  cleanup_node_removed_before_execution [cleanupNodeC, cleanupNodeD] cleanupNodeC
    cleanupInterrupt (fun _ => false) (fun _ => false) suiteInCleanup nodeA
    (by decide) (by decide) (by decide) (by decide)

end GinkgoSuite

namespace GinkgoSuite

theorem processSpecReportStates_eq (b : Bool) (l : List SpecState) :
    processSpecReportStates b l = (b && l.all (fun st => !st.isFailureState)) := by
  induction l generalizing b with
  | nil => cases b <;> simp [processSpecReportStates]
  | cons hd tl ih =>
    have : processSpecReportStates b (hd :: tl) =
        processSpecReportStates (if hd.isFailureState then false else b) tl := rfl
    rw [this, ih]
    cases hb : hd.isFailureState <;> cases b <;> simp [hb]

/-- Counterexample to C6 as stated: a run whose index counter fails to
produce the next group index records no failing spec report, sees no
interrupt and has no suite deadline, yet `runSpecs` returns false — suite
success is not equivalent to the three-way conjunction alone. -/
theorem runSpecs_success_not_three_way_conjunction :
    (runSpecsModel fetchErrInput).1 = false ∧
    (fetchErrInput.beforeSuiteStates ++ fetchErrInput.mainStates ++
      fetchErrInput.afterSuiteStates ++ fetchErrInput.reportAfterSuiteStates).all
        (fun st => !st.isFailureState) = true ∧
    fetchErrInput.interrupted = false ∧
    fetchErrInput.suiteDeadline = 0 := by decide

/-- C6 as amended: the boolean returned by runSpecs is true exactly when no
processed spec report entered a failure state, the index counter never
failed, pending specs with fail-on-pending did not occur, the interrupt
handler never reported an interrupt, and, when a suite-wide deadline was
set, the recorded end time did not exceed it (report-after-suite reports
being processed only on process 1). -/
theorem runSpecs_success_conjunction (inp : RunSpecsInput) :
    (runSpecsModel inp).1 =
      (inp.beforeSuiteStates.all (fun st => !st.isFailureState) &&
       inp.mainStates.all (fun st => !st.isFailureState) &&
       !inp.fetchFailed &&
       !(inp.hasPending && inp.failOnPending) &&
       inp.afterSuiteStates.all (fun st => !st.isFailureState) &&
       !inp.interrupted &&
       !(decide (inp.suiteDeadline ≠ 0) && decide (inp.suiteDeadline < inp.endTime)) &&
       (!(decide (inp.parallelProcess = 1)) ||
         inp.reportAfterSuiteStates.all (fun st => !st.isFailureState))) := by
  by_cases hd0 : inp.suiteDeadline = 0 <;>
    by_cases hdt : inp.suiteDeadline < inp.endTime <;>
      by_cases hpp : inp.parallelProcess = 1 <;>
        cases hb : inp.beforeSuiteStates.all (fun st => !st.isFailureState) <;>
          cases hf : inp.fetchFailed <;>
            cases hi : inp.interrupted <;>
              cases hq : inp.hasPending <;>
                cases hr : inp.failOnPending <;>
                  simp [runSpecsModel, processSpecReportStates_eq, hd0, hdt, hpp, hb, hf, hi, hq, hr]

/-- C7: `runAfterSuiteCleanup` — the after-suite node and the pending
after-suite cleanup nodes — is reached on every path through runSpecs,
including runs where an earlier failure (before-suite failure, spec failure
or an index-fetch failure) had already cleared suite success. -/
theorem runSpecs_always_runs_after_suite_cleanup (inp : RunSpecsInput) :
    RunPhaseEvent.afterSuiteCleanup ∈ (runSpecsModel inp).2 := by
  simp only [runSpecsModel, List.mem_append, List.mem_singleton]
  tauto

end GinkgoSuite

namespace GinkgoSuite

/-- C8: for a SynchronizedBeforeSuite node on a secondary process, given the
broadcast proc-1 state (with no client error): `Passed` makes the all-procs
body run with the received payload and its outcome and failure become the
recorded result; `Failed`, `Panicked` or `Timedout` keep the body from
running and record a synthesized failed-on-proc-1 leaf failure with state
`Failed`; `Interrupted`, `Aborted` or `Skipped` keep the body from running
and record the proc-1 state unchanged. -/
theorem sync_before_suite_secondary (node : Node) (data : SyncData)
    (allProcsResult : SyncData → SpecState × Failure) (st : SpecState) :
    (runSuiteNodeSyncBeforeSecondary node .Passed data none allProcsResult =
      { state := (allProcsResult data).1
        failure := (allProcsResult data).2
        allProcsBodyRan := true
        payloadUsed := some data }) ∧
    (st = .Failed ∨ st = .Panicked ∨ st = .Timedout →
      runSuiteNodeSyncBeforeSecondary node st data none allProcsResult =
        { state := .Failed
          failure := failureForLeafNodeWithMessage node synchronizedBeforeSuiteFailedOnProc1Message
          allProcsBodyRan := false
          payloadUsed := none }) ∧
    (st = .Interrupted ∨ st = .Aborted ∨ st = .Skipped →
      runSuiteNodeSyncBeforeSecondary node st data none allProcsResult =
        { state := st
          failure := emptyFailure
          allProcsBodyRan := false
          payloadUsed := none }) := by
  refine ⟨?_, ?_, ?_⟩
  · simp [runSuiteNodeSyncBeforeSecondary]
  · rintro (rfl | rfl | rfl) <;> simp [runSuiteNodeSyncBeforeSecondary, SpecState.isFailureState]
  · rintro (rfl | rfl | rfl) <;> simp [runSuiteNodeSyncBeforeSecondary]

/-- Witness for C8: the three proc-1 cases evaluated at a concrete payload
and all-procs oracle. -/
theorem sync_before_suite_secondary_witness :
    (runSuiteNodeSyncBeforeSecondary nodeSB .Passed [7, 9] none allProcsOracle =
      { state := (allProcsOracle [7, 9]).1
        failure := (allProcsOracle [7, 9]).2
        allProcsBodyRan := true
        payloadUsed := some [7, 9] }) ∧
    (runSuiteNodeSyncBeforeSecondary nodeSB .Panicked [7, 9] none allProcsOracle =
      { state := .Failed
        failure := failureForLeafNodeWithMessage nodeSB synchronizedBeforeSuiteFailedOnProc1Message
        allProcsBodyRan := false
        payloadUsed := none }) ∧
    (runSuiteNodeSyncBeforeSecondary nodeSB .Aborted [7, 9] none allProcsOracle =
      { state := .Aborted
        failure := emptyFailure
        allProcsBodyRan := false
        payloadUsed := none }) :=
  ⟨(sync_before_suite_secondary nodeSB [7, 9] allProcsOracle .Passed).1,
   (sync_before_suite_secondary nodeSB [7, 9] allProcsOracle .Panicked).2.1 (Or.inr (Or.inl rfl)),
   (sync_before_suite_secondary nodeSB [7, 9] allProcsOracle .Aborted).2.2 (Or.inr (Or.inl rfl))⟩

end GinkgoSuite

namespace GinkgoSuite

theorem storeRead_append_self (σ : EntryStore) (l : List ReportEntry) :
    storeRead (σ ++ [l]) σ.length = l := by
  simp [storeRead, List.getElem?_append_right]

theorem storeRead_append_of_lt (σ : EntryStore) (l : List ReportEntry) (r : Nat)
    (h : r < σ.length) : storeRead (σ ++ [l]) r = storeRead σ r := by
  simp [storeRead, List.getElem?_append, h]

theorem storeRead_storeWrite_ne (σ : EntryStore) (r₁ r₂ : Nat) (l : List ReportEntry)
    (h : r₁ ≠ r₂) : storeRead (storeWrite σ r₁ l) r₂ = storeRead σ r₂ := by
  simp [storeRead, storeWrite, List.getElem?_set_ne h]

theorem goCopy_fresh (src : List ReportEntry) :
    goCopy (List.replicate src.length defaultEntry) src = src := by
  simp [goCopy]

/-- The shape of one `CurrentSpecReport` call on a valid store: the returned
report points at a fresh buffer at the end of the store holding a copy of
the current entries, and the suite value is returned unchanged. -/
theorem currentSpecReport_shape (suite : SuiteReportView) (σ : EntryStore) :
    (CurrentSpecReport suite σ).1.reportEntries = σ.length ∧
    (CurrentSpecReport suite σ).2.1 = suite ∧
    (CurrentSpecReport suite σ).2.2 =
      σ ++ [storeRead σ suite.currentSpecReport.reportEntries] := by
  refine ⟨rfl, rfl, ?_⟩
  show storeWrite _ _ _ = _
  rw [storeRead_append_self, goCopy_fresh]
  simp [storeWrite, List.set_append_right]

end GinkgoSuite

namespace GinkgoSuite

/-- C9: `CurrentSpecReport` leaves the suite value and every existing entry
buffer unchanged, returns a report pointing at a fresh buffer (distinct from
the current report's buffer) holding a copy of the current entries, and
mutating the returned report's buffer affects neither the suite's buffer nor
the report produced by a subsequent `CurrentSpecReport` call. -/
theorem current_spec_report_frame_and_defensive_copy
    (suite : SuiteReportView) (σ : EntryStore)
    (h : suite.currentSpecReport.reportEntries < σ.length) :
    (CurrentSpecReport suite σ).2.1 = suite ∧
    (∀ r, r < σ.length → storeRead (CurrentSpecReport suite σ).2.2 r = storeRead σ r) ∧
    (CurrentSpecReport suite σ).1.reportEntries ≠ suite.currentSpecReport.reportEntries ∧
    storeRead (CurrentSpecReport suite σ).2.2 (CurrentSpecReport suite σ).1.reportEntries =
      storeRead σ suite.currentSpecReport.reportEntries ∧
    (∀ l, storeRead
        (storeWrite (CurrentSpecReport suite σ).2.2
          (CurrentSpecReport suite σ).1.reportEntries l)
        suite.currentSpecReport.reportEntries =
      storeRead σ suite.currentSpecReport.reportEntries) ∧
    (∀ l,
      storeRead
        (CurrentSpecReport suite
          (storeWrite (CurrentSpecReport suite σ).2.2
            (CurrentSpecReport suite σ).1.reportEntries l)).2.2
        (CurrentSpecReport suite
          (storeWrite (CurrentSpecReport suite σ).2.2
            (CurrentSpecReport suite σ).1.reportEntries l)).1.reportEntries =
      storeRead σ suite.currentSpecReport.reportEntries) := by
  obtain ⟨h1, h2, h3⟩ := currentSpecReport_shape suite σ
  refine ⟨h2, ?_, ?_, ?_, ?_, ?_⟩
  · intro r hr
    rw [h3]
    exact storeRead_append_of_lt σ _ r hr
  · rw [h1]
    omega
  · rw [h3, h1]
    exact storeRead_append_self σ _
  · intro l
    rw [h3, h1, storeRead_storeWrite_ne _ _ _ _ (by omega)]
    exact storeRead_append_of_lt σ _ _ h
  · intro l
    obtain ⟨g1, g2, g3⟩ := currentSpecReport_shape suite
      (storeWrite (CurrentSpecReport suite σ).2.2 (CurrentSpecReport suite σ).1.reportEntries l)
    rw [g3, g1, storeRead_append_self, h3, h1,
      storeRead_storeWrite_ne _ _ _ _ (by omega)]
    exact storeRead_append_of_lt σ _ _ h

/-- Witness for C9: the accessor evaluated on a one-buffer store, with the
returned buffer then cleared in place. -/
theorem current_spec_report_frame_and_defensive_copy_witness :
    (CurrentSpecReport suiteWithEntry storeWithEntry).2.1 = suiteWithEntry ∧
    storeRead (CurrentSpecReport suiteWithEntry storeWithEntry).2.2 0 =
      storeRead storeWithEntry 0 ∧
    (CurrentSpecReport suiteWithEntry storeWithEntry).1.reportEntries ≠
      suiteWithEntry.currentSpecReport.reportEntries ∧
    storeRead
        (storeWrite (CurrentSpecReport suiteWithEntry storeWithEntry).2.2
          (CurrentSpecReport suiteWithEntry storeWithEntry).1.reportEntries [])
        suiteWithEntry.currentSpecReport.reportEntries =
      storeRead storeWithEntry suiteWithEntry.currentSpecReport.reportEntries ∧
    storeRead
        (CurrentSpecReport suiteWithEntry
          (storeWrite (CurrentSpecReport suiteWithEntry storeWithEntry).2.2
            (CurrentSpecReport suiteWithEntry storeWithEntry).1.reportEntries [])).2.2
        (CurrentSpecReport suiteWithEntry
          (storeWrite (CurrentSpecReport suiteWithEntry storeWithEntry).2.2
            (CurrentSpecReport suiteWithEntry storeWithEntry).1.reportEntries [])).1.reportEntries =
      storeRead storeWithEntry suiteWithEntry.currentSpecReport.reportEntries :=
  ⟨(current_spec_report_frame_and_defensive_copy suiteWithEntry storeWithEntry (by decide)).1,
   (current_spec_report_frame_and_defensive_copy suiteWithEntry storeWithEntry (by decide)).2.1
     0 (by decide),
   (current_spec_report_frame_and_defensive_copy suiteWithEntry storeWithEntry (by decide)).2.2.1,
   (current_spec_report_frame_and_defensive_copy suiteWithEntry storeWithEntry (by decide)).2.2.2.2.1 [],
   (current_spec_report_frame_and_defensive_copy suiteWithEntry storeWithEntry (by decide)).2.2.2.2.2 []⟩

/-- C10: outside the run phase `AddReportEntry` returns an error and leaves
the suite and the entry store unchanged; in the run phase it returns nil and
the current spec report's entries become the old entries with the new entry
appended. -/
theorem add_report_entry_phase_gate (suite : SuiteReportView) (σ : EntryStore)
    (entry : ReportEntry) :
    (suite.phase ≠ .Run →
      AddReportEntry suite σ entry = (some .AddReportEntryNotDuringRunPhase, suite, σ)) ∧
    (suite.phase = .Run →
      (AddReportEntry suite σ entry).1 = none ∧
      storeRead (AddReportEntry suite σ entry).2.2
          (AddReportEntry suite σ entry).2.1.currentSpecReport.reportEntries =
        storeRead σ suite.currentSpecReport.reportEntries ++ [entry]) := by
  constructor
  · intro h
    simp [AddReportEntry, h]
  · intro h
    refine ⟨by simp [AddReportEntry, h], ?_⟩
    simp only [AddReportEntry, h, ne_eq, not_true_eq_false, if_false, reduceIte]
    exact storeRead_append_self σ _

/-- Witness for C10: a rejected registration during tree construction and an
accepted one during the run phase. -/
theorem add_report_entry_phase_gate_witness :
    AddReportEntry suiteBuildTree storeWithEntry entryB =
      (some .AddReportEntryNotDuringRunPhase, suiteBuildTree, storeWithEntry) ∧
    (AddReportEntry suiteWithEntry storeWithEntry entryB).1 = none ∧
    storeRead (AddReportEntry suiteWithEntry storeWithEntry entryB).2.2
        (AddReportEntry suiteWithEntry storeWithEntry entryB).2.1.currentSpecReport.reportEntries =
      storeRead storeWithEntry suiteWithEntry.currentSpecReport.reportEntries ++ [entryB] :=
  ⟨(add_report_entry_phase_gate suiteBuildTree storeWithEntry entryB).1 (by decide),
   (add_report_entry_phase_gate suiteWithEntry storeWithEntry entryB).2 rfl⟩

end GinkgoSuite
